import Mathlib

/-!
Verification model of the netlify-function-mcp core: a JSON-RPC 2.0
dispatcher implementing the MCP handshake and tool-invocation lifecycle.
Definitions are shallow embeddings of the TypeScript sources
(`errors.ts`, `jsonrpc.ts`, `types.ts`, `buildTools.ts`, `McpServer`).
JavaScript dynamic values are modelled by a `Json` inductive; JavaScript
`undefined` for an absent property is modelled by `Option` (`none`);
thrown values are modelled by an explicit `Thrown` sum and `Except`.
-/

/-- A JSON value, the model of the dynamic values flowing through the
dispatcher (`JSON.parse` output, `params`, results). Numbers are modelled
as integers; no claim under study depends on non-integer numerics. -/
inductive Json where
  | null : Json
  | bool (b : Bool) : Json
  | num (n : Int) : Json
  | str (s : String) : Json
  | arr (elems : List Json) : Json
  | obj (fields : List (String × Json)) : Json
deriving Repr

/-- JavaScript truthiness of a JSON value (`!x`, `x || y` tests).
`null`, `false`, `0` and the empty string are falsy; arrays and objects
are always truthy. -/
def Json.truthy : Json → Bool
  | .null => false
  | .bool b => b
  | .num n => n != 0
  | .str s => s != ""
  | .arr _ => true
  | .obj _ => true

/-- Model of `typeof x === 'object'`: true for objects, arrays and
`null` (a JavaScript quirk). -/
def Json.isObjectType : Json → Bool
  | .null => true
  | .arr _ => true
  | .obj _ => true
  | _ => false

/-- Property access `x.k` on a dynamic value: a field of an object
(later duplicate keys win, as in `JSON.parse`), `undefined` (`none`) on
everything else. -/
def Json.getProp : Json → String → Option Json
  | .obj fields, k => fields.foldl (fun acc kv => if kv.1 = k then some kv.2 else acc) none
  | _, _ => none

/-- Whether a serialized JSON object carries a key. -/
def Json.hasKey (j : Json) (k : String) : Bool :=
  (j.getProp k).isSome

/-- Escaping of one character inside a JSON string literal (model of the
escaping performed by the `JSON.stringify` builtin). -/
def escapeJsonChar (c : Char) : String :=
  if c = '"' then "\\\"" else if c = '\\' then "\\\\" else String.singleton c

/-- A JSON string literal with its quotes. -/
def quoteJsonString (s : String) : String :=
  "\"" ++ String.join (s.toList.map escapeJsonChar) ++ "\""

mutual

/-- Model of the `JSON.stringify(value, null, 2)` builtin used by
`handleToolsCall` to render a tool result as text. Whitespace/indentation
of the builtin is abstracted away: only that the text is a faithful
serialization of the value matters to the dispatcher. -/
def Json.stringify : Json → String
  | .null => "null"
  | .bool true => "true"
  | .bool false => "false"
  | .num n => toString n
  | .str s => quoteJsonString s
  | .arr elems => "[" ++ stringifyElems elems ++ "]"
  | .obj fields => "\x7b" ++ stringifyFields fields ++ "\x7d"

/-- Comma-separated serialization of array elements. -/
def stringifyElems : List Json → String
  | [] => ""
  | [x] => x.stringify
  | x :: xs => x.stringify ++ "," ++ stringifyElems xs

/-- Comma-separated serialization of object entries. -/
def stringifyFields : List (String × Json) → String
  | [] => ""
  | [kv] => quoteJsonString kv.1 ++ ":" ++ kv.2.stringify
  | kv :: kvs => quoteJsonString kv.1 ++ ":" ++ kv.2.stringify ++ "," ++ stringifyFields kvs

end

/-! Error taxonomy (`errors.ts`) -/

/-- The `JsonRpcErrorCode` enum: the closed set of protocol error kinds. -/
inductive JsonRpcErrorCode where
  | parseError
  | invalidRequest
  | methodNotFound
  | invalidParams
  | internalError
deriving DecidableEq, Repr

/-- The numeric wire value of each member of the `JsonRpcErrorCode` enum. -/
def JsonRpcErrorCode.toInt : JsonRpcErrorCode → Int
  | .parseError => -32700
  | .invalidRequest => -32600
  | .methodNotFound => -32601
  | .invalidParams => -32602
  | .internalError => -32603

/-- The `JsonRpcError` class: code, message and optional diagnostic data
(`none` models an `undefined` `data` property). -/
structure JsonRpcError where
  code : JsonRpcErrorCode
  message : String
  data : Option Json := none

/-- A thrown JavaScript value as seen by a `catch` block: a `JsonRpcError`
instance, some other `Error` instance (carrying a message), or a value
that is not an `Error` at all. -/
inductive Thrown where
  | rpc (e : JsonRpcError)
  | err (msg : String)
  | other

/-- Model of `error instanceof Error ? error.message : 'Unknown error'`
(a `JsonRpcError` is an `Error`, so its message is used). -/
def Thrown.errMessage : Thrown → String
  | .rpc e => e.message
  | .err msg => msg
  | .other => "Unknown error"

/-! JSON-RPC codec (`jsonrpc.ts`) -/

/-- The `error` member of a `JsonRpcResponse`: numeric code, message and
optional data. -/
structure ErrorPayload where
  code : Int
  message : String
  data : Option Json
deriving Repr

/-- A `JsonRpcResponse` object as built by `createSuccessResponse` /
`createErrorResponse`: the protocol tag, the echoed id (an arbitrary
dynamic value in the source, since ids are never type-checked), and the
optional `result` / `error` members. -/
structure JsonRpcResponse where
  jsonrpc : String
  id : Json
  result : Option Json
  error : Option ErrorPayload
deriving Repr

/-- The `createSuccessResponse(id, result)` helper. -/
def createSuccessResponse (id : Json) (result : Json) : JsonRpcResponse :=
  { jsonrpc := "2.0", id := id, result := some result, error := none }

/-- The `createErrorResponse(id, error)` helper: the `data` member is kept
optional, mirroring the conditional spread
`...(error.data !== undefined && \x7b data: error.data \x7d)`. -/
def createErrorResponse (id : Json) (error : JsonRpcError) : JsonRpcResponse :=
  { jsonrpc := "2.0", id := id, result := none,
    error := some { code := error.code.toInt, message := error.message, data := error.data } }

/-- Wire serialization of the `error` member: `code` and `message` always,
the `data` key present exactly when a data value was carried (the
conditional-spread semantics of `createErrorResponse`). -/
def ErrorPayload.toJson (p : ErrorPayload) : Json :=
  .obj ([("code", .num p.code), ("message", .str p.message)] ++
    (match p.data with
      | some d => [("data", d)]
      | none => []))

/-- Wire serialization of a whole response object: `result` / `error` keys
present exactly when the corresponding member is set. -/
def JsonRpcResponse.toJson (r : JsonRpcResponse) : Json :=
  .obj ([("jsonrpc", .str r.jsonrpc), ("id", r.id)] ++
    (match r.result with
      | some v => [("result", v)]
      | none => []) ++
    (match r.error with
      | some e => [("error", e.toJson)]
      | none => []))

/-- The `isValidJsonRpcRequest(data)` guard:
`data && typeof data === 'object' && data.jsonrpc === '2.0' && typeof data.method === 'string'`. -/
def isValidJsonRpcRequest (data : Json) : Bool :=
  data.truthy && data.isObjectType &&
    (match data.getProp "jsonrpc" with
      | some (.str s) => s = "2.0"
      | _ => false) &&
    (match data.getProp "method" with
      | some (.str _) => true
      | _ => false)

/-- The `parseJsonRpcMessage(text)` function. The `JSON.parse` builtin is
modelled as an oracle input: `.error ()` is a text on which `JSON.parse`
throws (syntactically invalid JSON), `.ok data` a text parsing to `data`.
On a parse failure it throws `ParseError`; on a structurally invalid
value it throws `InvalidRequest`. -/
def parseJsonRpcMessage (input : Except Unit Json) : Except JsonRpcError Json :=
  match input with
  | .error _ => .error { code := .parseError, message := "Invalid JSON" }
  | .ok data =>
    if isValidJsonRpcRequest data then .ok data
    else .error { code := .invalidRequest, message := "Invalid JSON-RPC request" }

/-! Tool records (`types.ts`, `buildTools.ts`) -/

/-- The `Tool` record: name, description, opaque input schema and the
invocation function. A handler takes an arguments object and either
resolves with a value or rejects with a thrown value. -/
structure Tool where
  name : String
  description : String
  inputSchema : Json
  handler : Json → Except Thrown Json

/-- The declared metadata of a tool module (`ToolMetadata`). -/
structure ToolMetadata where
  description : String
  inputSchema : Json

/-- A tool module as imported from the tools directory: declared metadata
plus a handler. -/
structure ToolModule where
  metadata : ToolMetadata
  handler : Json → Except Thrown Json

/-- The `buildTools(mods)` helper: the tool name is the module map key
(the file name), description and schema come from the module metadata. -/
def buildTools (mods : List (String × ToolModule)) : List Tool :=
  mods.map (fun kv =>
    { name := kv.1,
      description := kv.2.metadata.description,
      inputSchema := kv.2.metadata.inputSchema,
      handler := kv.2.handler })

/-! The MCP server (`McpServer`) -/

/-- The `McpServerOptions` record: server identity. -/
structure McpServerOptions where
  name : String
  version : String

/-- The state of a `McpServer` instance: construction options, the tool
list, and the mutable `initialized` flag. The `toolRegistry` map is not a
separate field: it is determined by `tools` (see `toolRegistryGet`) and
never mutated after construction. -/
structure McpServer where
  options : McpServerOptions
  tools : List Tool
  initialized : Bool

/-- The `McpServer` constructor: stores options and tools, starts
uninitialized, and fills the registry from the tool list. -/
def McpServer.new (options : McpServerOptions) (tools : List Tool) : McpServer :=
  { options := options, tools := tools, initialized := false }

/-- Lookup in the `toolRegistry` map built by the constructor's
`tools.forEach(tool => this.toolRegistry.set(tool.name, tool))`:
a later tool with the same name overwrites an earlier one. -/
def toolRegistryGet (tools : List Tool) (name : String) : Option Tool :=
  tools.foldl (fun acc tool => if tool.name = name then some tool else acc) none

/-- The id a handler echoes: `request.id ?? null` (an absent id becomes
`null`; any present value, `null` included, is passed through). -/
def requestIdOrNull (request : Json) : Json :=
  match request.getProp "id" with
  | some v => v
  | none => .null

/-- The `initialize` result object:
`protocolVersion`, `capabilities.tools`, `serverInfo`. -/
def initializeResultJson (options : McpServerOptions) : Json :=
  .obj [("protocolVersion", .str "2024-11-05"),
        ("capabilities", .obj [("tools", .obj [])]),
        ("serverInfo", .obj [("name", .str options.name),
                             ("version", .str options.version)])]

/-- The `handleInitialize` handler: builds the result, sets
`this.initialized = true`, echoes the request id. It never throws. -/
def McpServer.handleInitialize (s : McpServer) (request : Json) :
    McpServer × Except Thrown JsonRpcResponse :=
  ({ s with initialized := true },
   .ok (createSuccessResponse (requestIdOrNull request) (initializeResultJson s.options)))

/-- The `handleInitialized` handler: acknowledges the notification with an
empty result and no state effect. -/
def McpServer.handleInitialized (s : McpServer) (request : Json) :
    McpServer × Except Thrown JsonRpcResponse :=
  (s, .ok (createSuccessResponse (requestIdOrNull request) (.obj [])))

/-- One entry of the `tools/list` result: name, description and schema of
a tool — the handler is not part of the projection. -/
def toolListEntry (tool : Tool) : Json :=
  .obj [("name", .str tool.name),
        ("description", .str tool.description),
        ("inputSchema", tool.inputSchema)]

/-- The `handleToolsList` handler: requires the session to be initialized
(else throws `InvalidRequest`), then returns the projected tool list. -/
def McpServer.handleToolsList (s : McpServer) (request : Json) :
    McpServer × Except Thrown JsonRpcResponse :=
  if !s.initialized then
    (s, .error (.rpc { code := .invalidRequest, message := "Server not initialized" }))
  else
    (s, .ok (createSuccessResponse (requestIdOrNull request)
      (.obj [("tools", .arr (s.tools.map toolListEntry))])))

/-- The `tools/call` result object: a single text content item holding the
serialized tool result. -/
def toolsCallResultJson (result : Json) : Json :=
  .obj [("content", .arr [.obj [("type", .str "text"),
                                ("text", .str result.stringify)]])]

/-- The try/catch block of `handleToolsCall` around the tool invocation:
a resolving handler's value is serialized into the single-text-content
result; a throwing handler is caught and re-labeled `InternalError` with
the `Tool execution failed: ` prefix (so the thrown value never escapes
the dispatcher as-is). -/
def invokeTool (s : McpServer) (request : Json) (tool : Tool) (args : Json) :
    McpServer × Except Thrown JsonRpcResponse :=
  match tool.handler args with
  | .ok result =>
    (s, .ok (createSuccessResponse (requestIdOrNull request) (toolsCallResultJson result)))
  | .error thrown =>
    (s, .error (.rpc
      { code := .internalError,
        message := "Tool execution failed: " ++ thrown.errMessage }))

/-- The `handleToolsCall` handler, mirroring the source step by step:
initialization check; `!params || typeof params.name !== 'string'` check;
registry lookup; invocation with `params.arguments || {}` (see
`invokeTool` for the try/catch around the invocation itself). -/
def McpServer.handleToolsCall (s : McpServer) (request : Json) :
    McpServer × Except Thrown JsonRpcResponse :=
  if !s.initialized then
    (s, .error (.rpc { code := .invalidRequest, message := "Server not initialized" }))
  else
    match request.getProp "params" with
    | none =>
      (s, .error (.rpc { code := .invalidParams, message := "Missing tool name" }))
    | some params =>
      if !params.truthy then
        (s, .error (.rpc { code := .invalidParams, message := "Missing tool name" }))
      else
        match params.getProp "name" with
        | some (.str name) =>
          (match toolRegistryGet s.tools name with
           | none =>
             (s, .error (.rpc { code := .invalidParams,
                                message := "Tool not found: " ++ name }))
           | some tool =>
             invokeTool s request tool
               (match params.getProp "arguments" with
                | some a => if a.truthy then a else .obj []
                | none => .obj []))
        | _ =>
          (s, .error (.rpc { code := .invalidParams, message := "Missing tool name" }))

/-- The `switch (request.method)` dispatch table. The final catch-all is
unreachable after `isValidJsonRpcRequest`, which guarantees `method` is a
string; it mirrors the `default` branch for totality. -/
def McpServer.dispatch (s : McpServer) (request : Json) :
    McpServer × Except Thrown JsonRpcResponse :=
  match request.getProp "method" with
  | some (.str "initialize") => s.handleInitialize request
  | some (.str "initialized") => s.handleInitialized request
  | some (.str "tools/list") => s.handleToolsList request
  | some (.str "tools/call") => s.handleToolsCall request
  | some (.str m) =>
    (s, .error (.rpc { code := .methodNotFound, message := "Method not found: " ++ m }))
  | _ =>
    (s, .error (.rpc { code := .methodNotFound, message := "Method not found: undefined" }))

/-- The outer catch of `handleRequest` (its second try block): a thrown
`JsonRpcError` is serialized as-is; any other thrown value is wrapped as
`InternalError`, preserving an `Error`'s own message and using the fixed
text `Internal server error` for a non-`Error` value. -/
def handleRequestCatch (id : Json) : Thrown → JsonRpcResponse
  | .rpc e => createErrorResponse id e
  | .err msg => createErrorResponse id { code := .internalError, message := msg }
  | .other => createErrorResponse id { code := .internalError, message := "Internal server error" }

/-- The dispatcher entry point `handleRequest(requestText)`. The input is
the `JSON.parse` outcome of the request text (see `parseJsonRpcMessage`).
The first try block parses and re-validates, answering parse/shape
failures with id `null`; the second dispatches and converts any thrown
value into an error response echoing `request.id ?? null`. The returned
pair is (updated server state, response). -/
def McpServer.handleRequest (s : McpServer) (input : Except Unit Json) :
    McpServer × JsonRpcResponse :=
  match parseJsonRpcMessage input with
  | .error e => (s, createErrorResponse .null e)
  | .ok message =>
    if !isValidJsonRpcRequest message then
      (s, createErrorResponse .null { code := .invalidRequest, message := "Invalid JSON-RPC request" })
    else
      match s.dispatch message with
      | (s', .ok response) => (s', response)
      | (s', .error thrown) => (s', handleRequestCatch (requestIdOrNull message) thrown)

/-! Derived views used to state properties -/

/-- The tool name a `tools/call` request asks for: `some name` exactly
when `params` is present and truthy and `params.name` is a string — the
complement of the source's `!params || typeof params.name !== 'string'`
rejection condition. -/
def toolsCallRequestedName (request : Json) : Option String :=
  match request.getProp "params" with
  | some params =>
    if params.truthy then
      match params.getProp "name" with
      | some (.str name) => some name
      | _ => none
    else none
  | none => none

/-- The value the tool handler is invoked with: `params.arguments || {}`
(the arguments themselves when truthy, the empty object when absent or
falsy). -/
def toolsCallArguments (request : Json) : Json :=
  match request.getProp "params" with
  | some params =>
    (match params.getProp "arguments" with
     | some a => if a.truthy then a else .obj []
     | none => .obj [])
  | none => .obj []

/-- A well-formed JSON-RPC response value: protocol tag `2.0` and exactly
one of `result` / `error` set. -/
def wellFormedResponse (r : JsonRpcResponse) : Prop :=
  r.jsonrpc = "2.0" ∧ (r.result.isSome ↔ r.error = none)

/-! Concrete sample values (used to instantiate the theorems) -/

/-- Sample server identity. -/
def sampleOptions : McpServerOptions := { name := "X", version := "1.0.0" }

/-- A tool whose handler resolves with its own arguments object. -/
def echoTool : Tool :=
  { name := "echo", description := "Echo the arguments back",
    inputSchema := .obj [], handler := fun args => .ok args }

/-- A tool whose handler always rejects with an `Error` carrying the
message `boom failed`. -/
def boomTool : Tool :=
  { name := "boom", description := "Always throws",
    inputSchema := .obj [], handler := fun _ => .error (.err "boom failed") }

/-- A sample server over the two sample tools, fresh from the constructor
(uninitialized). -/
def sampleServer : McpServer := McpServer.new sampleOptions [echoTool, boomTool]

/-- The sample server after a successful `initialize`. -/
def sampleInitialized : McpServer := { sampleServer with initialized := true }

/-- A valid `initialize` request with id 1. -/
def initRequest : Json :=
  .obj [("jsonrpc", .str "2.0"), ("id", .num 1),
        ("method", .str "initialize"), ("params", .obj [])]

/-- A valid `tools/list` request with id 2. -/
def listRequest : Json :=
  .obj [("jsonrpc", .str "2.0"), ("id", .num 2), ("method", .str "tools/list")]

/-- A structurally valid request whose `method` is the empty string. -/
def emptyMethodRequest : Json :=
  .obj [("jsonrpc", .str "2.0"), ("id", .num 5), ("method", .str "")]

/-- A `tools/call` of the echo tool with an object argument. -/
def callEchoRequest : Json :=
  .obj [("jsonrpc", .str "2.0"), ("id", .num 3), ("method", .str "tools/call"),
        ("params", .obj [("name", .str "echo"),
                         ("arguments", .obj [("a", .num 1)])])]

/-- A `tools/call` of the throwing tool. -/
def callBoomRequest : Json :=
  .obj [("jsonrpc", .str "2.0"), ("id", .num 4), ("method", .str "tools/call"),
        ("params", .obj [("name", .str "boom")])]

/-- A `tools/call` naming a tool absent from the registry. -/
def callMissingRequest : Json :=
  .obj [("jsonrpc", .str "2.0"), ("id", .num 6), ("method", .str "tools/call"),
        ("params", .obj [("name", .str "nope")])]

/-- A `tools/call` carrying no `params` member at all. -/
def callNoParamsRequest : Json :=
  .obj [("jsonrpc", .str "2.0"), ("id", .num 7), ("method", .str "tools/call")]

/-- A `tools/call` of the echo tool whose `arguments` member is `null`
(present but falsy). -/
def callNullArgsRequest : Json :=
  .obj [("jsonrpc", .str "2.0"), ("id", .num 8), ("method", .str "tools/call"),
        ("params", .obj [("name", .str "echo"), ("arguments", .null)])]

/-- A parseable value that is not a valid envelope yet carries an id. -/
def invalidEnvelopeWithId : Json := .obj [("id", .num 9)]

/-! Theorems: bridge lemmas, then one theorem per specification claim. -/


theorem wellFormed_createSuccessResponse (id result : Json) :
    wellFormedResponse (createSuccessResponse id result) := by
  constructor <;> simp [createSuccessResponse]

theorem wellFormed_createErrorResponse (id : Json) (e : JsonRpcError) :
    wellFormedResponse (createErrorResponse id e) := by
  constructor <;> simp [createErrorResponse]

theorem wellFormed_handleRequestCatch (id : Json) (t : Thrown) :
    wellFormedResponse (handleRequestCatch id t) := by
  cases t <;> exact wellFormed_createErrorResponse _ _

theorem handleRequest_valid_ok (s : McpServer) (req : Json)
    (hv : isValidJsonRpcRequest req = true) :
    s.handleRequest (.ok req) =
      (match s.dispatch req with
       | (s', .ok response) => (s', response)
       | (s', .error thrown) => (s', handleRequestCatch (requestIdOrNull req) thrown)) := by
  unfold McpServer.handleRequest parseJsonRpcMessage
  simp [hv]

theorem dispatch_initMethod (s : McpServer) (req : Json)
    (hm : req.getProp "method" = some (.str "initialize")) :
    s.dispatch req = s.handleInitialize req := by
  unfold McpServer.dispatch
  rw [hm]
  rfl

theorem handleRequest_initMethod (s : McpServer) (req : Json)
    (hv : isValidJsonRpcRequest req = true)
    (hm : req.getProp "method" = some (.str "initialize")) :
    s.handleRequest (.ok req) =
      ({ s with initialized := true },
       createSuccessResponse (requestIdOrNull req) (initializeResultJson s.options)) := by
  rw [handleRequest_valid_ok s req hv, dispatch_initMethod s req hm]
  rfl

theorem handleToolsCall_via_name (s : McpServer) (req : Json)
    (hinit : s.initialized = true) :
    s.handleToolsCall req =
      (match toolsCallRequestedName req with
       | none =>
         (s, .error (.rpc { code := .invalidParams, message := "Missing tool name" }))
       | some name =>
         match toolRegistryGet s.tools name with
         | none =>
           (s, .error (.rpc { code := .invalidParams,
                              message := "Tool not found: " ++ name }))
         | some tool => invokeTool s req tool (toolsCallArguments req)) := by
  unfold McpServer.handleToolsCall toolsCallRequestedName toolsCallArguments
  rw [hinit]
  simp only [Bool.not_true, Bool.false_eq_true, if_false]
  cases hp : req.getProp "params" with
  | none => rfl
  | some params =>
    cases ht : params.truthy with
    | false => simp [ht]
    | true =>
      simp only [ht, if_true]
      cases hn : params.getProp "name" with
      | none => rfl
      | some v =>
        cases v <;> rfl

theorem dispatch_toolsList (s : McpServer) (req : Json)
    (hm : req.getProp "method" = some (.str "tools/list")) :
    s.dispatch req = s.handleToolsList req := by
  unfold McpServer.dispatch
  rw [hm]
  rfl

theorem dispatch_toolsCall (s : McpServer) (req : Json)
    (hm : req.getProp "method" = some (.str "tools/call")) :
    s.dispatch req = s.handleToolsCall req := by
  unfold McpServer.dispatch
  rw [hm]
  rfl

theorem handleRequest_toolsCall_initialized (s : McpServer) (req : Json)
    (hinit : s.initialized = true)
    (hv : isValidJsonRpcRequest req = true)
    (hm : req.getProp "method" = some (.str "tools/call")) :
    s.handleRequest (.ok req) =
      (match toolsCallRequestedName req with
       | none =>
         (s, createErrorResponse (requestIdOrNull req)
           { code := .invalidParams, message := "Missing tool name" })
       | some name =>
         match toolRegistryGet s.tools name with
         | none =>
           (s, createErrorResponse (requestIdOrNull req)
             { code := .invalidParams, message := "Tool not found: " ++ name })
         | some tool =>
           match tool.handler (toolsCallArguments req) with
           | .ok result =>
             (s, createSuccessResponse (requestIdOrNull req) (toolsCallResultJson result))
           | .error thrown =>
             (s, createErrorResponse (requestIdOrNull req)
               { code := .internalError,
                 message := "Tool execution failed: " ++ thrown.errMessage })) := by
  rw [handleRequest_valid_ok s req hv, dispatch_toolsCall s req hm,
      handleToolsCall_via_name s req hinit]
  cases hname : toolsCallRequestedName req with
  | none => rfl
  | some name =>
    dsimp only
    cases hreg : toolRegistryGet s.tools name with
    | none => rfl
    | some tool =>
      dsimp only [invokeTool]
      cases hh : tool.handler (toolsCallArguments req) with
      | ok result => rfl
      | error thrown => rfl

theorem invokeTool_ok_wellFormed (s : McpServer) (req : Json) (tool : Tool) (args : Json)
    (r : JsonRpcResponse) (h : (invokeTool s req tool args).2 = .ok r) :
    wellFormedResponse r := by
  unfold invokeTool at h
  split at h
  · simp at h; subst h; exact wellFormed_createSuccessResponse _ _
  · simp at h

theorem handleToolsCall_ok_wellFormed (s : McpServer) (req : Json) (r : JsonRpcResponse)
    (h : (s.handleToolsCall req).2 = .ok r) : wellFormedResponse r := by
  unfold McpServer.handleToolsCall at h
  repeat' split at h
  all_goals simp_all
  all_goals exact invokeTool_ok_wellFormed _ _ _ _ _ h

theorem dispatch_ok_wellFormed (s : McpServer) (req : Json) (r : JsonRpcResponse)
    (h : (s.dispatch req).2 = .ok r) : wellFormedResponse r := by
  unfold McpServer.dispatch at h
  split at h
  · simp [McpServer.handleInitialize] at h
    subst h; exact wellFormed_createSuccessResponse _ _
  · simp [McpServer.handleInitialized] at h
    subst h; exact wellFormed_createSuccessResponse _ _
  · unfold McpServer.handleToolsList at h
    split at h
    · simp_all
    · simp at h; subst h; exact wellFormed_createSuccessResponse _ _
  · exact handleToolsCall_ok_wellFormed s req r h
  · simp_all
  · simp_all

theorem handleRequest_wellFormed (s : McpServer) (input : Except Unit Json) :
    wellFormedResponse (s.handleRequest input).2 := by
  unfold McpServer.handleRequest
  split
  · exact wellFormed_createErrorResponse _ _
  · split
    · exact wellFormed_createErrorResponse _ _
    · split
      next s' response heq =>
        have h := congrArg Prod.snd heq
        exact dispatch_ok_wellFormed _ _ _ h
      next s' thrown heq =>
        exact wellFormed_handleRequestCatch _ _

/-- C1: for every parse outcome and session state the dispatcher returns a
well-formed response value (never raises), and a thrown value that is not
a `JsonRpcError` is converted at the outer boundary to a -32603 error
response whose message preserves the original `Error` message. -/
theorem handleRequest_total_wellFormed_and_internal_wrap :
    (∀ (s : McpServer) (input : Except Unit Json),
        wellFormedResponse (s.handleRequest input).2) ∧
    (∀ (id : Json) (msg : String),
        handleRequestCatch id (Thrown.err msg) =
          createErrorResponse id { code := .internalError, message := msg } ∧
        (handleRequestCatch id (Thrown.err msg)).error =
          some { code := -32603, message := msg, data := none }) :=
  ⟨handleRequest_wellFormed, fun _ _ => ⟨rfl, rfl⟩⟩

/-- C9: serializing a protocol error always succeeds, yields the
jsonrpc/id/error shape with the numeric code and message, and the `data`
key appears in the serialized error object exactly when the error carries
a data value (omitted entirely when absent). -/
theorem createErrorResponse_shape_and_data_key :
    ∀ (id : Json) (e : JsonRpcError),
      (createErrorResponse id e).jsonrpc = "2.0" ∧
      (createErrorResponse id e).id = id ∧
      (createErrorResponse id e).result = none ∧
      (createErrorResponse id e).error =
        some { code := e.code.toInt, message := e.message, data := e.data } ∧
      ((createErrorResponse id e).error.elim false
          (fun p => p.toJson.hasKey "data")) = e.data.isSome ∧
      ((createErrorResponse id e).error.elim false
          (fun p => p.toJson.hasKey "code" && p.toJson.hasKey "message")) = true := by
  intro id e
  obtain ⟨c, m, d⟩ := e
  refine ⟨rfl, rfl, rfl, rfl, ?_, ?_⟩ <;> cases d <;> rfl

/-- C5: a syntactically invalid input text yields a -32700 error response
with id null; a parseable input that is not a structurally valid envelope
yields a -32600 error response with id null, even when the parsed value
carries an id field. -/
theorem parse_and_shape_failures_get_null_id :
    ∀ (s : McpServer),
      (s.handleRequest (.error ()) =
        (s, createErrorResponse .null
          { code := .parseError, message := "Invalid JSON" })) ∧
      (∀ data : Json, isValidJsonRpcRequest data = false →
        s.handleRequest (.ok data) =
          (s, createErrorResponse .null
            { code := .invalidRequest, message := "Invalid JSON-RPC request" })) ∧
      JsonRpcErrorCode.parseError.toInt = -32700 ∧
      JsonRpcErrorCode.invalidRequest.toInt = -32600 := by
  intro s
  refine ⟨rfl, ?_, rfl, rfl⟩
  intro data h
  unfold McpServer.handleRequest parseJsonRpcMessage
  simp [h]

/-- C5 witness: a parseable value carrying an id but no method is answered
with code -32600 and id null. -/
theorem parse_and_shape_failures_get_null_id_witness :
    sampleServer.handleRequest (.ok invalidEnvelopeWithId) =
      (sampleServer, createErrorResponse .null
        { code := .invalidRequest, message := "Invalid JSON-RPC request" }) :=
  (parse_and_shape_failures_get_null_id sampleServer).2.1 invalidEnvelopeWithId rfl

/-- C4: a `tools/list` or `tools/call` request on an uninitialized session
is answered with a -32600 error response whatever its id, and the server
state (initialized flag and tool registry alike) is returned unchanged. -/
theorem uninitialized_tools_requests_rejected :
    ∀ (s : McpServer) (req : Json),
      s.initialized = false →
      isValidJsonRpcRequest req = true →
      (req.getProp "method" = some (.str "tools/list") ∨
       req.getProp "method" = some (.str "tools/call")) →
      s.handleRequest (.ok req) =
        (s, createErrorResponse (requestIdOrNull req)
          { code := .invalidRequest, message := "Server not initialized" }) ∧
      JsonRpcErrorCode.invalidRequest.toInt = -32600 := by
  intro s req hinit hv hm
  refine ⟨?_, rfl⟩
  rw [handleRequest_valid_ok s req hv]
  rcases hm with hm | hm
  · rw [dispatch_toolsList s req hm]
    unfold McpServer.handleToolsList
    rw [hinit]
    rfl
  · rw [dispatch_toolsCall s req hm]
    unfold McpServer.handleToolsCall
    rw [hinit]
    rfl

/-- C4 witness: `tools/list` with id 2 on the fresh sample server is
rejected with `Server not initialized`, the state untouched. -/
theorem uninitialized_tools_requests_rejected_witness :
    sampleServer.handleRequest (.ok listRequest) =
      (sampleServer, createErrorResponse (requestIdOrNull listRequest)
        { code := .invalidRequest, message := "Server not initialized" }) :=
  (uninitialized_tools_requests_rejected sampleServer listRequest rfl rfl (Or.inl rfl)).1

/-- C7: every `initialize` request, whatever the session state and params,
succeeds with exactly the protocolVersion/capabilities/serverInfo result
and the request id echoed, and flips only the initialized flag; hence
initializing twice leaves the very same state as initializing once, so
any subsequent request is answered identically. -/
theorem initialize_result_and_idempotence :
    ∀ (s : McpServer) (req : Json),
      isValidJsonRpcRequest req = true →
      req.getProp "method" = some (.str "initialize") →
      (s.handleRequest (.ok req) =
        ({ s with initialized := true },
         createSuccessResponse (requestIdOrNull req) (initializeResultJson s.options))) ∧
      initializeResultJson s.options =
        .obj [("protocolVersion", .str "2024-11-05"),
              ("capabilities", .obj [("tools", .obj [])]),
              ("serverInfo", .obj [("name", .str s.options.name),
                                   ("version", .str s.options.version)])] ∧
      (∀ (req' : Json) (input' : Except Unit Json),
        isValidJsonRpcRequest req' = true →
        req'.getProp "method" = some (.str "initialize") →
        ((s.handleRequest (.ok req)).1.handleRequest (.ok req')).1.handleRequest input' =
          (s.handleRequest (.ok req)).1.handleRequest input') := by
  intro s req hv hm
  refine ⟨handleRequest_initMethod s req hv hm, rfl, ?_⟩
  intro req' input' hv' hm'
  rw [handleRequest_initMethod s req hv hm]
  rw [handleRequest_initMethod _ req' hv' hm']

/-- C7 witness: initializing the sample server yields the documented
result for name `X` version `1.0.0` with id 1 echoed, and a second
initialize leaves the answer to a subsequent `tools/list` unchanged. -/
theorem initialize_result_and_idempotence_witness :
    (sampleServer.handleRequest (.ok initRequest) =
      ({ sampleServer with initialized := true },
       createSuccessResponse (requestIdOrNull initRequest)
         (initializeResultJson sampleOptions))) ∧
    (((sampleServer.handleRequest (.ok initRequest)).1.handleRequest
        (.ok initRequest)).1.handleRequest (.ok listRequest) =
      (sampleServer.handleRequest (.ok initRequest)).1.handleRequest (.ok listRequest)) :=
  ⟨(initialize_result_and_idempotence sampleServer initRequest rfl rfl).1,
   (initialize_result_and_idempotence sampleServer initRequest rfl rfl).2.2
     initRequest (.ok listRequest) rfl rfl⟩

/-- C6: after a successful `initialize`, a `tools/list` request succeeds
echoing its id, listing every tool of the construction-time list as a
name/description/inputSchema triple; the entries never carry the handler. -/
theorem toolsList_after_initialize_lists_tools :
    ∀ (s : McpServer) (reqI reqL : Json),
      isValidJsonRpcRequest reqI = true →
      reqI.getProp "method" = some (.str "initialize") →
      isValidJsonRpcRequest reqL = true →
      reqL.getProp "method" = some (.str "tools/list") →
      ((s.handleRequest (.ok reqI)).1.handleRequest (.ok reqL) =
        ((s.handleRequest (.ok reqI)).1,
         createSuccessResponse (requestIdOrNull reqL)
           (.obj [("tools", .arr (s.tools.map toolListEntry))]))) ∧
      (∀ tool : Tool,
        toolListEntry tool =
          .obj [("name", .str tool.name),
                ("description", .str tool.description),
                ("inputSchema", tool.inputSchema)] ∧
        (toolListEntry tool).hasKey "handler" = false ∧
        (toolListEntry tool).hasKey "name" = true ∧
        (toolListEntry tool).hasKey "description" = true ∧
        (toolListEntry tool).hasKey "inputSchema" = true) := by
  intro s reqI reqL hvI hmI hvL hmL
  constructor
  · rw [handleRequest_initMethod s reqI hvI hmI]
    dsimp only
    rw [handleRequest_valid_ok _ reqL hvL, dispatch_toolsList _ reqL hmL]
    rfl
  · intro tool
    exact ⟨rfl, rfl, rfl, rfl, rfl⟩

/-- C6 witness: after initializing the sample server, `tools/list` with
id 2 returns the echo and boom tools as metadata triples. -/
theorem toolsList_after_initialize_lists_tools_witness :
    (sampleServer.handleRequest (.ok initRequest)).1.handleRequest (.ok listRequest) =
      ((sampleServer.handleRequest (.ok initRequest)).1,
       createSuccessResponse (requestIdOrNull listRequest)
         (.obj [("tools", .arr (sampleServer.tools.map toolListEntry))])) :=
  (toolsList_after_initialize_lists_tools sampleServer initRequest listRequest
    rfl rfl rfl rfl).1

/-- C2: on an initialized session, `tools/call` rejects a missing/non-string
tool name with -32602, rejects an unregistered name with -32602 naming it,
and for a registered tool whose handler resolves returns a success response
echoing the id whose single text content item is the serialized value, the
handler being invoked with `params.arguments` (empty object when absent). -/
theorem toolsCall_validation_lookup_success :
    ∀ (s : McpServer) (req : Json),
      s.initialized = true →
      isValidJsonRpcRequest req = true →
      req.getProp "method" = some (.str "tools/call") →
      (toolsCallRequestedName req = none →
        s.handleRequest (.ok req) =
          (s, createErrorResponse (requestIdOrNull req)
            { code := .invalidParams, message := "Missing tool name" })) ∧
      (∀ name : String,
        toolsCallRequestedName req = some name →
        toolRegistryGet s.tools name = none →
        s.handleRequest (.ok req) =
          (s, createErrorResponse (requestIdOrNull req)
            { code := .invalidParams, message := "Tool not found: " ++ name })) ∧
      (∀ (name : String) (tool : Tool) (value : Json),
        toolsCallRequestedName req = some name →
        toolRegistryGet s.tools name = some tool →
        tool.handler (toolsCallArguments req) = .ok value →
        s.handleRequest (.ok req) =
          (s, createSuccessResponse (requestIdOrNull req) (toolsCallResultJson value)) ∧
        toolsCallResultJson value =
          .obj [("content", .arr [.obj [("type", .str "text"),
                                        ("text", .str value.stringify)]])]) ∧
      (∀ params : Json, req.getProp "params" = some params →
        (params.getProp "arguments" = none → toolsCallArguments req = .obj []) ∧
        (∀ a : Json, params.getProp "arguments" = some a → a.truthy = true →
          toolsCallArguments req = a)) ∧
      JsonRpcErrorCode.invalidParams.toInt = -32602 := by
  intro s req hinit hv hm
  refine ⟨?_, ?_, ?_, ?_, rfl⟩
  · intro hname
    rw [handleRequest_toolsCall_initialized s req hinit hv hm, hname]
  · intro name hname hreg
    rw [handleRequest_toolsCall_initialized s req hinit hv hm, hname]
    dsimp only
    rw [hreg]
  · intro name tool value hname hreg hh
    refine ⟨?_, rfl⟩
    rw [handleRequest_toolsCall_initialized s req hinit hv hm, hname]
    dsimp only
    rw [hreg]
    dsimp only
    rw [hh]
  · intro params hp
    unfold toolsCallArguments
    rw [hp]
    dsimp only
    refine ⟨fun ha => by rw [ha], fun a ha ht => by rw [ha]; simp [ht]⟩

/-- C2 witness: the three branches at concrete requests: no params at all,
an unregistered name, and a successful echo call with object arguments. -/
theorem toolsCall_validation_lookup_success_witness :
    (sampleInitialized.handleRequest (.ok callNoParamsRequest) =
      (sampleInitialized, createErrorResponse (requestIdOrNull callNoParamsRequest)
        { code := .invalidParams, message := "Missing tool name" })) ∧
    (sampleInitialized.handleRequest (.ok callMissingRequest) =
      (sampleInitialized, createErrorResponse (requestIdOrNull callMissingRequest)
        { code := .invalidParams, message := "Tool not found: " ++ "nope" })) ∧
    (sampleInitialized.handleRequest (.ok callEchoRequest) =
      (sampleInitialized, createSuccessResponse (requestIdOrNull callEchoRequest)
        (toolsCallResultJson (.obj [("a", .num 1)])))) :=
  ⟨(toolsCall_validation_lookup_success sampleInitialized callNoParamsRequest
      rfl rfl rfl).1 rfl,
   (toolsCall_validation_lookup_success sampleInitialized callMissingRequest
      rfl rfl rfl).2.1 "nope" rfl rfl,
   ((toolsCall_validation_lookup_success sampleInitialized callEchoRequest
      rfl rfl rfl).2.2.1 "echo" echoTool (.obj [("a", .num 1)]) rfl rfl rfl).1⟩

/-- C3: on an initialized session, a registered tool whose handler throws
yields a -32603 error response whose message is the tool failure message
prefixed with `Tool execution failed: `; the thrown value never escapes. -/
theorem toolsCall_handler_failure_wrapped :
    ∀ (s : McpServer) (req : Json) (name : String) (tool : Tool) (t : Thrown),
      s.initialized = true →
      isValidJsonRpcRequest req = true →
      req.getProp "method" = some (.str "tools/call") →
      toolsCallRequestedName req = some name →
      toolRegistryGet s.tools name = some tool →
      tool.handler (toolsCallArguments req) = .error t →
      s.handleRequest (.ok req) =
        (s, createErrorResponse (requestIdOrNull req)
          { code := .internalError,
            message := "Tool execution failed: " ++ t.errMessage }) ∧
      (∀ msg : String, (Thrown.err msg).errMessage = msg) ∧
      JsonRpcErrorCode.internalError.toInt = -32603 := by
  intro s req name tool t hinit hv hm hname hreg hh
  refine ⟨?_, fun _ => rfl, rfl⟩
  rw [handleRequest_toolsCall_initialized s req hinit hv hm, hname]
  dsimp only
  rw [hreg]
  dsimp only
  rw [hh]

/-- C3 witness: calling the boom tool on the initialized sample server
answers with -32603 and the prefixed message `boom failed`. -/
theorem toolsCall_handler_failure_wrapped_witness :
    sampleInitialized.handleRequest (.ok callBoomRequest) =
      (sampleInitialized, createErrorResponse (requestIdOrNull callBoomRequest)
        { code := .internalError,
          message := "Tool execution failed: " ++ (Thrown.err "boom failed").errMessage }) :=
  (toolsCall_handler_failure_wrapped sampleInitialized callBoomRequest
    "boom" boomTool (.err "boom failed") rfl rfl rfl rfl rfl rfl).1

/-- C10: the tool handler receives `params.arguments` itself exactly when
that value is truthy; every falsy arguments value - absent, null, false,
0 or the empty string - is replaced by the empty object, and an initialized
`tools/call` on a registered tool invokes the handler on that value. -/
theorem toolsCall_arguments_truthiness :
    ∀ (req params : Json),
      req.getProp "params" = some params →
      (∀ a : Json, params.getProp "arguments" = some a →
        toolsCallArguments req = (if a.truthy then a else Json.obj [])) ∧
      (params.getProp "arguments" = none → toolsCallArguments req = Json.obj []) ∧
      (Json.truthy .null = false ∧ Json.truthy (.bool false) = false ∧
        Json.truthy (.num 0) = false ∧ Json.truthy (.str "") = false) ∧
      (∀ (s : McpServer) (name : String) (tool : Tool),
        s.initialized = true →
        toolsCallRequestedName req = some name →
        toolRegistryGet s.tools name = some tool →
        s.handleToolsCall req = invokeTool s req tool (toolsCallArguments req)) := by
  intro req params hp
  refine ⟨?_, ?_, ⟨rfl, rfl, rfl, rfl⟩, ?_⟩
  · intro a ha
    unfold toolsCallArguments
    rw [hp]
    dsimp only
    rw [ha]
  · intro ha
    unfold toolsCallArguments
    rw [hp]
    dsimp only
    rw [ha]
  · intro s name tool hinit hname hreg
    rw [handleToolsCall_via_name s req hinit, hname]
    dsimp only
    rw [hreg]

/-- C10 witness: a present-but-null `arguments` member reaches the echo
handler as the empty object, so the echo of the call is `{}`. -/
theorem toolsCall_arguments_truthiness_witness :
    toolsCallArguments callNullArgsRequest = (if Json.truthy .null then .null else Json.obj []) ∧
    sampleInitialized.handleToolsCall callNullArgsRequest =
      invokeTool sampleInitialized callNullArgsRequest echoTool
        (toolsCallArguments callNullArgsRequest) :=
  ⟨(toolsCall_arguments_truthiness callNullArgsRequest
      (.obj [("name", .str "echo"), ("arguments", .null)]) rfl).1 .null rfl,
   (toolsCall_arguments_truthiness callNullArgsRequest
      (.obj [("name", .str "echo"), ("arguments", .null)]) rfl).2.2.2
     sampleInitialized "echo" echoTool rfl rfl rfl⟩

/-- C8 counterexample: a parsed value whose `method` is the empty string —
hence not a non-empty string — is NOT rejected by the validation step:
`isValidJsonRpcRequest` accepts it, and the dispatcher answers it with
`MethodNotFound` (-32601), not with `InvalidRequest` (-32600). -/
theorem empty_method_accepted_counterexample :
    isValidJsonRpcRequest emptyMethodRequest = true ∧
    emptyMethodRequest.getProp "method" = some (.str "") ∧
    (sampleServer.handleRequest (.ok emptyMethodRequest)).2.error =
      some { code := -32601, message := "Method not found: ", data := none } :=
  ⟨rfl, rfl, rfl⟩

/-- C8 amended: a protocol-tag equal to `2.0` and a `method` of string
type are necessary for a parsed value to be considered a request (a value
with no `method` is rejected), but the method string may be empty: the
empty-string method passes validation (and is then dispatched to the
`MethodNotFound` default branch). -/
theorem method_string_and_tag_required :
    ∀ data : Json,
      (isValidJsonRpcRequest data = true →
        data.getProp "jsonrpc" = some (.str "2.0") ∧
        ∃ m : String, data.getProp "method" = some (.str m)) ∧
      (data.getProp "method" = none → isValidJsonRpcRequest data = false) ∧
      isValidJsonRpcRequest (.obj [("jsonrpc", .str "2.0"), ("method", .str "")]) = true := by
  intro data
  refine ⟨?_, ?_, rfl⟩
  · intro h
    unfold isValidJsonRpcRequest at h
    simp only [Bool.and_eq_true] at h
    obtain ⟨⟨⟨-, -⟩, h3⟩, h4⟩ := h
    constructor
    · split at h3
      next s heq =>
        have hs : s = "2.0" := by simpa using h3
        rw [heq, hs]
      next => exact absurd h3 (by simp)
    · split at h4
      next m heq => exact ⟨m, heq⟩
      next => exact absurd h4 (by simp)
  · intro hm
    unfold isValidJsonRpcRequest
    rw [hm]
    simp

/-- C8 amended witness: the empty-method request satisfies the necessary
conditions, and a value with no method member fails validation. -/
theorem method_string_and_tag_required_witness :
    (emptyMethodRequest.getProp "jsonrpc" = some (.str "2.0") ∧
      ∃ m : String, emptyMethodRequest.getProp "method" = some (.str m)) ∧
    isValidJsonRpcRequest invalidEnvelopeWithId = false :=
  ⟨(method_string_and_tag_required emptyMethodRequest).1 rfl,
   (method_string_and_tag_required invalidEnvelopeWithId).2.1 rfl⟩
